import Mathlib

/-!
Shallow embedding of the ResolutaLeech download engine
(src/downloaders/{manager,mega,direct,base}.py) and proofs about it.

Bytes are modelled as `Nat` (values < 256), byte strings as `List Nat`,
Python strings as `List Char`.  Python floats (speed, progress) are
modelled as exact rationals.  Wall-clock timestamps and the uuid4
generator are external inputs and appear as explicit parameters.
-/

namespace ResolutaLeech


/-! ### Base64

`MegaDownloader._base64_to_bytes` re-pads the token and calls the CPython
`base64.b64decode` (binascii `a2b_base64`, non-strict mode).  The model
below follows the C loop: characters outside the standard alphabet and
`=` are discarded; a `=` seen while the current quantum holds at least
two characters counts as padding, and once quantum length + padding
reaches 4 the partial quantum is emitted and the rest of the input is
ignored; input ending with a partial quantum is an error. -/

def stdAlphabet : List Char :=
  "ABCDEFGHIJKLMNOPQRSTUVWXYZabcdefghijklmnopqrstuvwxyz0123456789+/".toList

def b64CharVal (c : Char) : Option Nat :=
  stdAlphabet.findIdx? (fun x => x = c)

/-- Bytes produced by one full 4-character quantum. -/
def quadBytes (v0 v1 v2 v3 : Nat) : List Nat :=
  [v0 * 4 + v1 / 16, v1 % 16 * 16 + v2 / 4, v2 % 4 * 64 + v3]

/-- Bytes emitted for a partial quantum terminated by padding. -/
def partialBytes : List Nat → List Nat
  | [v0, v1] => [v0 * 4 + v1 / 16]
  | [v0, v1, v2] => [v0 * 4 + v1 / 16, v1 % 16 * 16 + v2 / 4]
  | _ => []

/-- Model of binascii `a2b_base64` (non-strict): `q` is the current
quantum (at most 3 values), `pads` the count of padding characters seen
since the last data character. -/
def a2bBase64 : List Char → List Nat → Nat → Option (List Nat)
  | [], q, _ =>
      match q with
      | [] => some []
      | _ => none
  | c :: rest, q, pads =>
      if c = '=' then
        if 2 ≤ q.length then
          if 4 ≤ q.length + (pads + 1) then some (partialBytes q)
          else a2bBase64 rest q (pads + 1)
        else a2bBase64 rest q pads
      else
        match b64CharVal c with
        | none => a2bBase64 rest q pads
        | some v =>
          match q with
          | [v0, v1, v2] => (a2bBase64 rest [] 0).map (fun out => quadBytes v0 v1 v2 v ++ out)
          | _ => a2bBase64 rest (q ++ [v]) 0

/-- The character rewriting done by `_base64_to_bytes`:
`data.replace('-', '+').replace('_', '/')`. -/
def repChar (c : Char) : Char :=
  if c = '-' then '+' else if c = '_' then '/' else c

/-- Repadded input handed to `b64decode` by `_base64_to_bytes`:
rewrite characters, strip `,`, pad with `=` to a multiple of 4. -/
def b64Repad (s : List Char) : List Char :=
  let d := (s.map repChar).filter (fun c => c ≠ ',')
  if d.length % 4 ≠ 0 then d ++ List.replicate (4 - d.length % 4) '=' else d

/-- `MegaDownloader._base64_to_bytes`; `none` models the binascii
exception propagating out of the call. -/
def base64ToBytes (s : List Char) : Option (List Nat) :=
  a2bBase64 (b64Repad s) [] 0

/-! Unpadded base64url encoding (the inverse operation named by the
round-trip claim; not part of the repository, stated from the standard). -/

def urlAlphabet : List Char :=
  "ABCDEFGHIJKLMNOPQRSTUVWXYZabcdefghijklmnopqrstuvwxyz0123456789-_".toList

def b64n (v : Nat) : Char := urlAlphabet.getD v 'A'

def b64urlEncode : List Nat → List Char
  | [] => []
  | [b1] => [b64n (b1 / 4), b64n (b1 % 4 * 16)]
  | [b1, b2] => [b64n (b1 / 4), b64n (b1 % 4 * 16 + b2 / 16), b64n (b2 % 16 * 4)]
  | b1 :: b2 :: b3 :: rest =>
      b64n (b1 / 4) :: b64n (b1 % 4 * 16 + b2 / 16) ::
      b64n (b2 % 16 * 4 + b3 / 64) :: b64n (b3 % 64) :: b64urlEncode rest

/-! ### Key derivation (MegaDownloader.download, lines 57-69)

`struct.unpack('>IIIIIIII', key)` / `struct.pack('>IIII', ...)` on byte
strings. -/

def unpackBE32 : List Nat → List Nat
  | a :: b :: c :: d :: rest => (a * 2 ^ 24 + b * 2 ^ 16 + c * 2 ^ 8 + d) :: unpackBE32 rest
  | _ => []

def packBE32 : List Nat → List Nat
  | [] => []
  | w :: rest => w / 2 ^ 24 % 256 :: w / 2 ^ 16 % 256 :: w / 2 ^ 8 % 256 :: w % 256 :: packBE32 rest

/-- Key unwrap: eight big-endian words, cipher key is the xor-fold of the
two halves, IV is words 4,5 followed by eight zero bytes. -/
def megaPrepareKey (key : List Nat) : List Nat × List Nat :=
  let ka := unpackBE32 key
  let w := fun i => ka.getD i 0
  (packBE32 [Nat.xor (w 0) (w 4), Nat.xor (w 1) (w 5), Nat.xor (w 2) (w 6), Nat.xor (w 3) (w 7)],
   packBE32 [w 4, w 5] ++ List.replicate 8 0)

/-- The key-decoding stage of `MegaDownloader.download`: decode the URL
key token, reject anything that is not exactly 32 bytes.  A decode
exception falls through to the generic handler of `download`. -/
def megaKeyStage (tok : List Char) : Except (List Char) (List Nat × List Nat) :=
  match base64ToBytes tok with
  | none => Except.error "Erro: binascii".toList
  | some k =>
      if k.length = 32 then Except.ok (megaPrepareKey k)
      else Except.error "Chave de decriptação inválida".toList

/-! ### AES-CTR streaming decryption (MegaDownloader._download_and_decrypt)

`Counter.new(128, initial_value=...)` + `AES.new(key, AES.MODE_CTR)`.
The block cipher keyed by the AES key is abstracted as a function `E`
from a 128-bit counter value to a 16-byte keystream block; the cipher
object's internal position (which persists across `decrypt` calls) is
the explicit `pos` argument. -/

def ksByte (E : Nat → List Nat) (ctr0 i : Nat) : Nat :=
  (E ((ctr0 + i / 16) % 2 ^ 128)).getD (i % 16) 0

/-- One `cipher.decrypt(chunk)` call starting at stream position `pos`. -/
def ctrDecrypt (E : Nat → List Nat) (ctr0 : Nat) : Nat → List Nat → List Nat
  | _, [] => []
  | pos, b :: rest => Nat.xor b (ksByte E ctr0 pos) :: ctrDecrypt E ctr0 (pos + 1) rest

/-- The download loop of `_download_and_decrypt`: each (non-empty) chunk
is decrypted with the same cipher object and appended to the output
file. -/
def ctrDecryptChunks (E : Nat → List Nat) (ctr0 : Nat) : Nat → List (List Nat) → List Nat
  | _, [] => []
  | pos, c :: cs =>
      if c = [] then ctrDecryptChunks E ctr0 pos cs
      else ctrDecrypt E ctr0 pos c ++ ctrDecryptChunks E ctr0 (pos + c.length) cs

/-! ### URL parsing (MegaDownloader._parse_url)

`re.search(r'mega\.nz/file/([^#]+)#(.+)', url)` and the legacy
`re.search(r'mega\.nz/#!([^!]+)!(.+)', url)` after
`url.replace('mega.co.nz', 'mega.nz')`.  `re.search` tries each start
position from the left; at a given position the literal part must match,
`[^#]+`/`[^!]+` greedily takes the maximal run up to the next separator
(there is no alternative match, since the separator literal can only
match that very character), and `(.+)` needs at least one
non-newline character and captures up to the next newline or the end. -/

def listStartsWith : List Char → List Char → Bool
  | [], _ => true
  | _ :: _, [] => false
  | p :: ps, c :: cs => p == c && listStartsWith ps cs

/-- Whether `pat` occurs as a contiguous substring. -/
def occursIn (pat : List Char) : List Char → Bool
  | [] => listStartsWith pat []
  | c :: rest => listStartsWith pat (c :: rest) || occursIn pat rest

/-- Python `str.replace`: leftmost, non-overlapping. -/
def pyReplace (pat rep : List Char) : List Char → List Char
  | [] => []
  | c :: rest =>
      if pat ≠ [] ∧ listStartsWith pat (c :: rest) then
        rep ++ pyReplace pat rep (List.drop (pat.length - 1) rest)
      else
        c :: pyReplace pat rep rest
  termination_by s => s.length
  decreasing_by
    · simp only [List.length_cons, List.length_drop]; omega
    · simp

def filePat : List Char := "mega.nz/file/".toList
def legacyPat : List Char := "mega.nz/#!".toList

/-- Match of `<pat>([^<sep>]+)<sep>(.+)` anchored at the head of `s`;
both regexes of `_parse_url` have this shape (`pat` = literal part,
`sep` = `#` or `!`). -/
def matchPatAt (pat : List Char) (sep : Char) (s : List Char) :
    Option (List Char × List Char) :=
  if listStartsWith pat s then
    let rest := s.drop pat.length
    let g1 := rest.takeWhile (fun c => c != sep)
    match rest.drop g1.length with
    | c :: after =>
        if c = sep then
          let g2 := after.takeWhile (fun c => c != '\n')
          if g1 = [] ∨ g2 = [] then none else some (g1, g2)
        else none
    | _ => none
  else none

/-- `re.search`: try `matchPatAt` at every start position, leftmost
match wins. -/
def searchPat (pat : List Char) (sep : Char) : List Char → Option (List Char × List Char)
  | [] => none
  | c :: rest =>
      match matchPatAt pat sep (c :: rest) with
      | some r => some r
      | none => searchPat pat sep rest

/-- `MegaDownloader._parse_url`. -/
def megaParseUrl (url : List Char) : Option (List Char × List Char) :=
  let u := pyReplace "mega.co.nz".toList "mega.nz".toList url
  match searchPat filePat '#' u with
  | some r => some r
  | none => searchPat legacyPat '!' u

/-- The URL-parsing stage of `MegaDownloader.download`. -/
def megaUrlStage (url : List Char) : Except (List Char) (List Char × List Char) :=
  match megaParseUrl url with
  | some r => Except.ok r
  | none => Except.error "URL inválida - não foi possível extrair ID e chave".toList

/-! ### Metadata fetch (MegaDownloader._get_file_info_api and its use)

The RPC answer is a JSON value; `_get_file_info_api` returns `None` for
a network/JSON failure, a non-list answer, an empty list, or a negative
first element, and the first element otherwise.  Object field values are
abstracted as strings. -/

inductive ApiElem where
  | aint (n : Int)
  | aobj (fields : List (String × String))
deriving DecidableEq, Repr

inductive ApiResponse where
  | netFail
  | nonList
  | list (elems : List ApiElem)
deriving DecidableEq, Repr

def getFileInfoApi : ApiResponse → Option ApiElem
  | .netFail => none
  | .nonList => none
  | .list [] => none
  | .list (ApiElem.aint n :: _) => if n < 0 then none else some (ApiElem.aint n)
  | .list (e :: _) => some e

/-- Python truthiness of the value held by `file_info`. -/
def pyFalsyElem : Option ApiElem → Bool
  | none => true
  | some (ApiElem.aint n) => n = 0
  | some (ApiElem.aobj fields) => fields = []

/-- The metadata stage of `MegaDownloader.download`:
`if not file_info: return error`. -/
def megaInfoStage (resp : ApiResponse) : Except (List Char) ApiElem :=
  match getFileInfoApi resp with
  | some e =>
      if pyFalsyElem (some e) then Except.error "Arquivo não encontrado ou indisponível".toList
      else Except.ok e
  | none => Except.error "Arquivo não encontrado ou indisponível".toList

/-! ### MegaDownloader.get_file_info -/

structure MegaFileInfo where
  available : Bool
  filename : Option String
  size : Nat
  note : String
deriving DecidableEq, Repr

/-- `MegaDownloader.get_file_info` together with the number of network
requests its body performs (it performs none). -/
def megaGetFileInfo (_url : String) : MegaFileInfo × Nat :=
  (⟨true, none, 0, "Informações serão obtidas durante o download"⟩, 0)

/-! ### Download orchestrator (DownloadManager)

The `downloads` dict is an insertion-ordered association list; the
`threads` dict is not modelled (workers appear as the operations they
perform on the registry).  The two registered backend instances carry
their own `cancelled` flags, which are part of the state. -/

inductive DStatus where
  | starting
  | downloading
  | completed
  | error
  | cancelled
deriving DecidableEq, Repr

structure DRecord where
  id : String
  url : String
  status : DStatus
  progress : ℚ
  downloaded : Nat
  total : Nat
  speed : ℚ
  filename : String
  filepath : String
  host : String
  error : Option String
  startedAt : Nat
  completedAt : Option Nat
  options : List (String × String)
deriving DecidableEq, Repr

structure MState where
  downloads : List (String × DRecord)
  megaCancelled : Bool
  directCancelled : Bool
deriving DecidableEq, Repr

def mstate0 : MState := ⟨[], false, false⟩

def dget : List (String × DRecord) → String → Option DRecord
  | [], _ => none
  | (k, v) :: rest, key => if k = key then some v else dget rest key

/-- Python dict assignment: replace in place, else append. -/
def dset : List (String × DRecord) → String → DRecord → List (String × DRecord)
  | [], key, v => [(key, v)]
  | (k, v') :: rest, key, v =>
      if k = key then (key, v) :: rest else (k, v') :: dset rest key v

/-- In-place mutation of the record stored under `key` (dict keys are
unique, so modifying the first occurrence models
`self.downloads[download_id][...] = ...`). -/
def dmodify : List (String × DRecord) → String → (DRecord → DRecord) → List (String × DRecord)
  | [], _, _ => []
  | (k, v) :: rest, key, f =>
      if k = key then (k, f v) :: rest else (k, v) :: dmodify rest key f

/-! Backend dispatch: `can_handle` does a case-insensitive `re.search` of
the URL patterns, all of which are literal strings. -/

def lowerStr (s : String) : List Char := s.toList.map Char.toLower

def megaCanHandle (url : String) : Bool :=
  ["mega.nz/file/", "mega.nz/folder/", "mega.nz/#!", "mega.nz/#f!", "mega.co.nz/"].any
    fun p => occursIn p.toList (lowerStr url)

def directCanHandle (url : String) : Bool :=
  listStartsWith "http://".toList (lowerStr url) ||
  listStartsWith "https://".toList (lowerStr url)

/-- `DownloadManager._get_downloader` with the final fallback of
`add_download`; only the chosen backend's display name matters here. -/
def dispatchHostName (url : String) : String :=
  if megaCanHandle url then "MEGA.nz"
  else if directCanHandle url then "Direct Link"
  else "Direct Link"

def optGet (options : Option (List (String × String))) (key : String) : String :=
  match options with
  | none => ""
  | some o => (o.lookup key).getD ""

/-- The record built by `DownloadManager.add_download`; `now` stands for
`datetime.now()` and `genId` for `str(uuid.uuid4())[:8]`. -/
def mkDownloadRecord (genId url : String) (options : Option (List (String × String)))
    (now : Nat) : DRecord :=
  { id := genId
    url := url
    status := DStatus.starting
    progress := 0
    downloaded := 0
    total := 0
    speed := 0
    filename := optGet options "filename"
    filepath := ""
    host := dispatchHostName url
    error := none
    startedAt := now
    completedAt := none
    options := options.getD [] }

/-- `DownloadManager.add_download`: stores the record under the freshly
generated id (a plain dict assignment, no uniqueness check) and returns
the id. -/
def addDownload (st : MState) (genId url : String) (options : Option (List (String × String)))
    (now : Nat) : String × MState :=
  (genId, { st with downloads := dset st.downloads genId (mkDownloadRecord genId url options now) })

/-- `DownloadManager._update_status`: sets the status unconditionally
when the id is registered; the error field is only written when the
argument is truthy. -/
def updateStatusOp (st : MState) (id : String) (s : DStatus) (err : Option String) : MState :=
  match dget st.downloads id with
  | none => st
  | some _ =>
      { st with downloads := dmodify st.downloads id fun r =>
          { r with status := s
                   error := if err ≠ none ∧ err ≠ some "" then err else r.error } }

def workerStart (st : MState) (id : String) : MState :=
  updateStatusOp st id DStatus.downloading none

def workerError (st : MState) (id : String) (msg : String) : MState :=
  updateStatusOp st id DStatus.error (some msg)

/-- The success branch of `DownloadManager._download_worker`. -/
def workerComplete (st : MState) (id fp fn : String) (size now : Nat) : MState :=
  match dget st.downloads id with
  | none => st
  | some _ =>
      { st with downloads := dmodify st.downloads id fun r =>
          { r with status := DStatus.completed
                   progress := 100
                   filepath := fp
                   filename := fn
                   total := size
                   downloaded := size
                   completedAt := some now } }

/-- Python `round(x, 1)` on an exact rational. -/
def round1 (x : ℚ) : ℚ := (round (10 * x) : ℤ) / 10

/-- The progress callback passed to the backend by `_download_worker`. -/
def progressOp (st : MState) (id : String) (downloaded total : Nat) (speed : ℚ) : MState :=
  match dget st.downloads id with
  | none => st
  | some _ =>
      { st with downloads := dmodify st.downloads id fun r =>
          { r with downloaded := downloaded
                   total := total
                   progress := if 0 < total then round1 ((downloaded : ℚ) / (total : ℚ) * 100) else 0
                   speed := speed } }

/-- `DownloadManager.cancel`: flips the record's status and returns
`True`; the backend instances (and their `cancelled` flags) are not
touched. -/
def cancelOp (st : MState) (id : String) : Bool × MState :=
  match dget st.downloads id with
  | none => (false, st)
  | some _ =>
      (true, { st with downloads := dmodify st.downloads id fun r =>
          { r with status := DStatus.cancelled } })

/-! ### DirectDownloader.download stream loop

`flag i` is the value of the backend's `self.cancelled` flag observed at
the top of loop iteration `i`; the target file is created by `open` and
holds the bytes written so far (`none` once removed). -/

structure DirectOutcome where
  file : Option (List Nat)
  success : Bool
  error : Option String
  filepath : String
  filename : String
  size : Nat
deriving DecidableEq, Repr

def directLoop (fp fn : String) (flag : Nat → Bool) :
    List (List Nat) → Nat → List Nat → DirectOutcome
  | [], _, written =>
      { file := some written, success := true, error := none
        filepath := fp, filename := fn, size := written.length }
  | c :: cs, i, written =>
      if flag i then
        { file := none, success := false, error := some "Download cancelado"
          filepath := "", filename := "", size := written.length }
      else
        directLoop fp fn flag cs (i + 1) (if c = [] then written else written ++ c)

def directDownload (fp fn : String) (flag : Nat → Bool) (chunks : List (List Nat)) :
    DirectOutcome :=
  directLoop fp fn flag chunks 0 []

/-- The tail of `DownloadManager._download_worker`: route the backend
result to the `completed` update or to `_update_status('error', ...)`. -/
def workerFinish (st : MState) (id : String) (o : DirectOutcome) (now : Nat) : MState :=
  if o.success then workerComplete st id o.filepath o.filename o.size now
  else workerError st id (o.error.getD "Erro desconhecido")

/-! ### Helper lemmas on the registry -/

theorem dget_dset_self (dl : List (String × DRecord)) (k : String) (v : DRecord) :
    dget (dset dl k v) k = some v := by
  induction dl with
  | nil => simp [dset, dget]
  | cons p rest ih =>
      obtain ⟨k', v'⟩ := p
      by_cases hk : k' = k
      · subst hk; simp [dset, dget]
      · simp [dset, dget, hk, ih]

theorem dget_dset_ne (dl : List (String × DRecord)) (k : String) (v : DRecord)
    (k' : String) (h : k' ≠ k) : dget (dset dl k v) k' = dget dl k' := by
  induction dl with
  | nil => simp [dset, dget, Ne.symm h]
  | cons p rest ih =>
      obtain ⟨k₀, v₀⟩ := p
      by_cases hk : k₀ = k
      · subst hk
        simp [dset, dget, Ne.symm h]
      · simp only [dset, if_neg hk, dget]
        by_cases hk' : k₀ = k'
        · simp [hk']
        · simp [hk', ih]

theorem dget_dmodify (dl : List (String × DRecord)) (k : String) (f : DRecord → DRecord) :
    dget (dmodify dl k f) k = (dget dl k).map f := by
  induction dl with
  | nil => rfl
  | cons p rest ih =>
      obtain ⟨k₀, v₀⟩ := p
      by_cases hk : k₀ = k
      · subst hk; simp [dmodify, dget]
      · simp [dmodify, dget, hk, ih]

/-! ### Example states used by concrete runs -/

def recMega : DRecord :=
  { mkDownloadRecord "abc12345" "https://mega.nz/file/AAA#BBB" none 0 with
      status := DStatus.downloading }

def stMid : MState := ⟨[("abc12345", recMega)], false, false⟩

def recDirect : DRecord :=
  { mkDownloadRecord "abc12345" "http://example.com/f.bin" none 0 with
      status := DStatus.downloading }

def stDirect : MState :=
  workerStart (addDownload mstate0 "abc12345" "http://example.com/f.bin" none 0).2 "abc12345"

/-! ### Claim C1 -/

/-- Claim C1: on a registered id, `DownloadManager.cancel` flips the
record to `cancelled` and returns `True`, and on an unknown id returns
`False` changing nothing — but it never signals the backend bound to the
download: both backend `cancelled` flags stay `False`, so the transfer
is not asked to stop (the backends' `cancel()` methods are never
invoked anywhere in the code). -/
theorem c1_cancel_no_backend_signal :
    (cancelOp stMid "abc12345").1 = true
    ∧ (dget (cancelOp stMid "abc12345").2.downloads "abc12345").map DRecord.status =
        some DStatus.cancelled
    ∧ (cancelOp stMid "abc12345").2.megaCancelled = false
    ∧ (cancelOp stMid "abc12345").2.directCancelled = false
    ∧ (cancelOp stMid "zzzzzzzz").1 = false
    ∧ (cancelOp stMid "zzzzzzzz").2 = stMid := by
  decide

/-! ### Claim C3 -/

def c3Completed : MState :=
  workerComplete (workerStart (addDownload mstate0 "abc12345" "http://example.com/f.bin" none 0).2
    "abc12345") "abc12345" "/downloads/f.bin" "f.bin" 10 3

/-- Claim C3 counterexample: a record that has reached the terminal
status `completed` is moved to `cancelled` by a later `cancel` call, so
terminal states are not absorbing. -/
theorem c3_counterexample :
    (dget c3Completed.downloads "abc12345").map DRecord.status = some DStatus.completed
    ∧ (cancelOp c3Completed "abc12345").1 = true
    ∧ (dget (cancelOp c3Completed "abc12345").2.downloads "abc12345").map DRecord.status =
        some DStatus.cancelled := by
  decide

/-- Claim C3 (amended): no orchestrator operation inspects the current
status — on any registered id, `cancel` yields `cancelled`, the worker
transitions yield `downloading`/`error`/`completed`, and the progress
callback leaves the status unchanged, all regardless of the record's
prior (possibly terminal) status. -/
theorem c3_status_overwritten_unconditionally (st : MState) (id : String) (r : DRecord)
    (h : dget st.downloads id = some r) (msg fp fn : String) (size now d t : Nat) (sp : ℚ) :
    (dget (cancelOp st id).2.downloads id).map DRecord.status = some DStatus.cancelled
    ∧ (dget (workerStart st id).downloads id).map DRecord.status = some DStatus.downloading
    ∧ (dget (workerError st id msg).downloads id).map DRecord.status = some DStatus.error
    ∧ (dget (workerComplete st id fp fn size now).downloads id).map DRecord.status =
        some DStatus.completed
    ∧ (dget (progressOp st id d t sp).downloads id).map DRecord.status = some r.status := by
  refine ⟨?_, ?_, ?_, ?_, ?_⟩ <;>
    simp [cancelOp, workerStart, workerError, workerComplete, progressOp, updateStatusOp, h,
      dget_dmodify]

/-- Claim C3 amended witness: the amended statement evaluated on a
concrete registered record. -/
theorem c3_status_overwritten_witness :
    (dget (cancelOp stMid "abc12345").2.downloads "abc12345").map DRecord.status =
        some DStatus.cancelled
    ∧ (dget (workerStart stMid "abc12345").downloads "abc12345").map DRecord.status =
        some DStatus.downloading
    ∧ (dget (workerError stMid "abc12345" "boom").downloads "abc12345").map DRecord.status =
        some DStatus.error
    ∧ (dget (workerComplete stMid "abc12345" "/d/f" "f" 9 4).downloads "abc12345").map
        DRecord.status = some DStatus.completed
    ∧ (dget (progressOp stMid "abc12345" 1 2 (3 : ℚ)).downloads "abc12345").map DRecord.status =
        some recMega.status :=
  c3_status_overwritten_unconditionally stMid "abc12345" recMega (by decide) "boom" "/d/f" "f" 9 4 1 2 3

/-! ### Claim C2 -/

def c2Flag : Nat → Bool := fun i => 1 ≤ i

def c2Outcome : DirectOutcome := directDownload "/downloads/f.bin" "f.bin" c2Flag [[1], [2]]

def c2Final : MState := workerFinish (cancelOp stDirect "abc12345").2 "abc12345" c2Outcome 5

/-- Claim C2 counterexample: a stream download whose cancellation flag is
observed on the second chunk deletes the partial file (that half of the
claim holds), but the worker maps the failed result to status `error`
(message "Download cancelado"), not to `cancelled` — even though the
`cancel` call had put the record in `cancelled` moments before. -/
theorem c2_counterexample :
    c2Outcome.file = none
    ∧ (dget (cancelOp stDirect "abc12345").2.downloads "abc12345").map DRecord.status =
        some DStatus.cancelled
    ∧ (dget c2Final.downloads "abc12345").map DRecord.status = some DStatus.error
    ∧ (dget c2Final.downloads "abc12345").map DRecord.status ≠ some DStatus.cancelled := by
  decide

theorem directLoop_cancelled (fp fn : String) (flag : Nat → Bool) :
    ∀ (chunks : List (List Nat)) (i0 : Nat) (w : List Nat),
      (∃ j, j < chunks.length ∧ flag (i0 + j) = true) →
      (directLoop fp fn flag chunks i0 w).file = none
      ∧ (directLoop fp fn flag chunks i0 w).success = false
      ∧ (directLoop fp fn flag chunks i0 w).error = some "Download cancelado"
  | [], _, _, h => absurd h.choose_spec.1 (by simp)
  | c :: cs, i0, w, h => by
      by_cases h0 : flag i0 = true
      · simp [directLoop, h0]
      · have hj : ∃ j, j < cs.length ∧ flag (i0 + 1 + j) = true := by
          obtain ⟨j, hjl, hjf⟩ := h
          match j with
          | 0 => exact absurd (by simpa using hjf) h0
          | j + 1 =>
              exact ⟨j, by simpa [Nat.lt_succ_iff] using Nat.lt_of_succ_lt_succ hjl,
                by rw [show i0 + 1 + j = i0 + (j + 1) by omega]; exact hjf⟩
        simpa [directLoop, h0] using directLoop_cancelled fp fn flag cs (i0 + 1) _ hj

/-- Claim C2 (amended): when the cancellation flag is observed
mid-transfer the partial file is deleted and the call fails with
"Download cancelado", but the worker records the terminal status
`error` (with that message), not `cancelled`. -/
theorem c2_cancel_deletes_file_but_status_error
    (fp fn : String) (flag : Nat → Bool) (chunks : List (List Nat))
    (hcancel : ∃ i, i < chunks.length ∧ flag i = true)
    (st : MState) (id : String) (r : DRecord) (h : dget st.downloads id = some r) (now : Nat) :
    (directDownload fp fn flag chunks).file = none
    ∧ (directDownload fp fn flag chunks).success = false
    ∧ (directDownload fp fn flag chunks).error = some "Download cancelado"
    ∧ (dget (workerFinish st id (directDownload fp fn flag chunks) now).downloads id).map
        DRecord.status = some DStatus.error := by
  obtain ⟨hf, hs, he⟩ := directLoop_cancelled fp fn flag chunks 0 [] (by simpa using hcancel)
  refine ⟨hf, hs, he, ?_⟩
  simp [workerFinish, directDownload] at hs ⊢
  simp [hs, workerError, updateStatusOp, h, dget_dmodify]

/-- Claim C2 amended witness: the amended statement evaluated on a
two-chunk transfer whose flag becomes visible at the second chunk. -/
theorem c2_cancel_witness :
    c2Outcome.file = none
    ∧ c2Outcome.success = false
    ∧ c2Outcome.error = some "Download cancelado"
    ∧ (dget (workerFinish stDirect "abc12345" c2Outcome 5).downloads "abc12345").map
        DRecord.status = some DStatus.error :=
  c2_cancel_deletes_file_but_status_error "/downloads/f.bin" "f.bin" c2Flag [[1], [2]]
    ⟨1, by decide, by decide⟩ stDirect "abc12345" recDirect (by decide) 5

/-! ### Claim C4 -/

/-- Claim C4 counterexample: the RPC answer `[-3]` produces exactly the
same download error as a network failure during the metadata fetch
("Arquivo não encontrado ou indisponível") — there is no distinct
host-rejected error kind. -/
theorem c4_counterexample :
    megaInfoStage (ApiResponse.list [ApiElem.aint (-3)]) =
      Except.error "Arquivo não encontrado ou indisponível".toList
    ∧ megaInfoStage ApiResponse.netFail =
      Except.error "Arquivo não encontrado ou indisponível".toList
    ∧ megaInfoStage (ApiResponse.list [ApiElem.aint (-3)]) = megaInfoStage ApiResponse.netFail :=
  ⟨rfl, rfl, rfl⟩

/-- Claim C4 (amended): every negative first element makes
`_get_file_info_api` return `None`, and `download` then fails with the
generic "Arquivo não encontrado ou indisponível" error — identical to
what a network failure during the metadata fetch produces, so host
rejection is not distinguishable from a generic network failure. -/
theorem c4_host_rejection_indistinct (n : Int) (rest : List ApiElem) (hn : n < 0) :
    getFileInfoApi (ApiResponse.list (ApiElem.aint n :: rest)) = none
    ∧ megaInfoStage (ApiResponse.list (ApiElem.aint n :: rest)) =
        Except.error "Arquivo não encontrado ou indisponível".toList
    ∧ megaInfoStage (ApiResponse.list (ApiElem.aint n :: rest)) =
        megaInfoStage ApiResponse.netFail := by
  refine ⟨?_, ?_, ?_⟩ <;> simp [getFileInfoApi, megaInfoStage, hn]

/-- Claim C4 amended witness: the amended statement at the concrete
response `[-3]`. -/
theorem c4_host_rejection_witness :
    getFileInfoApi (ApiResponse.list [ApiElem.aint (-3)]) = none
    ∧ megaInfoStage (ApiResponse.list [ApiElem.aint (-3)]) =
        Except.error "Arquivo não encontrado ou indisponível".toList
    ∧ megaInfoStage (ApiResponse.list [ApiElem.aint (-3)]) = megaInfoStage ApiResponse.netFail :=
  c4_host_rejection_indistinct (-3) [] (by decide)

/-! ### Claim C5 -/

def c5St1 : MState := (addDownload mstate0 "deadbeef" "http://example.com/a.bin" none 0).2

/-- Claim C5 counterexample: `str(uuid.uuid4())[:8]` is only 32 bits of
randomness and `add_download` performs no uniqueness check, so when the
generator repeats an id the two submissions return the same id and the
second record silently overwrites the first: after both submissions only
one record exists and its `url` is the second URL. -/
theorem c5_counterexample :
    (addDownload mstate0 "deadbeef" "http://example.com/a.bin" none 0).1 =
      (addDownload c5St1 "deadbeef" "http://example.com/b.bin" none 1).1
    ∧ (dget (addDownload c5St1 "deadbeef" "http://example.com/b.bin" none 1).2.downloads
        "deadbeef").map DRecord.url = some "http://example.com/b.bin"
    ∧ (addDownload c5St1 "deadbeef" "http://example.com/b.bin" none 1).2.downloads.length = 1 := by
  decide

/-- Claim C5 (amended): `add_download` returns exactly the generated id
and stores the fresh record under it unconditionally — records under
other ids are untouched, but a repeated generated id overwrites the
existing record (ids are distinct only as long as the truncated uuid4
values happen to be). -/
theorem c5_add_download_stores_unconditionally (st : MState) (genId url : String)
    (options : Option (List (String × String))) (now : Nat) :
    (addDownload st genId url options now).1 = genId
    ∧ dget (addDownload st genId url options now).2.downloads genId =
        some (mkDownloadRecord genId url options now)
    ∧ ∀ k, k ≠ genId → dget (addDownload st genId url options now).2.downloads k =
        dget st.downloads k := by
  refine ⟨rfl, ?_, ?_⟩
  · simp [addDownload, dget_dset_self]
  · intro k hk
    simp [addDownload, dget_dset_ne _ _ _ _ hk]

/-- Claim C5 amended witness: the amended statement at a concrete state
and ids. -/
theorem c5_add_download_witness :
    (addDownload c5St1 "deadbeef" "http://example.com/b.bin" none 1).1 = "deadbeef"
    ∧ dget (addDownload c5St1 "deadbeef" "http://example.com/b.bin" none 1).2.downloads
        "deadbeef" = some (mkDownloadRecord "deadbeef" "http://example.com/b.bin" none 1)
    ∧ dget (addDownload c5St1 "deadbeef" "http://example.com/b.bin" none 1).2.downloads
        "cafe0000" = dget c5St1.downloads "cafe0000" :=
  ⟨(c5_add_download_stores_unconditionally c5St1 "deadbeef" "http://example.com/b.bin" none 1).1,
   (c5_add_download_stores_unconditionally c5St1 "deadbeef" "http://example.com/b.bin" none 1).2.1,
   (c5_add_download_stores_unconditionally c5St1 "deadbeef" "http://example.com/b.bin" none 1).2.2
     "cafe0000" (by decide)⟩

/-! ### Claim C10 -/

/-- Claim C10: `MegaDownloader.get_file_info` returns the constant
record (available, no filename, size 0) for every URL and performs no
network request, so its answer carries no information about the file. -/
theorem c10_get_file_info_constant (url : String) :
    megaGetFileInfo url =
      (⟨true, none, 0, "Informações serão obtidas durante o download"⟩, 0) := rfl

/-! ### Claim C9 -/

theorem ctrDecrypt_append (E : Nat → List Nat) (ctr0 : Nat) :
    ∀ (a b : List Nat) (pos : Nat),
      ctrDecrypt E ctr0 pos (a ++ b) =
        ctrDecrypt E ctr0 pos a ++ ctrDecrypt E ctr0 (pos + a.length) b
  | [], _, _ => by simp [ctrDecrypt]
  | x :: a, b, pos => by
      have ih := ctrDecrypt_append E ctr0 a b (pos + 1)
      have h : pos + 1 + a.length = pos + (a.length + 1) := by omega
      simp only [List.cons_append, ctrDecrypt, List.length_cons, List.append_eq]
      rw [ih, h]

theorem ctrDecryptChunks_join (E : Nat → List Nat) (ctr0 : Nat) :
    ∀ (chunks : List (List Nat)) (pos : Nat),
      ctrDecryptChunks E ctr0 pos chunks = ctrDecrypt E ctr0 pos chunks.flatten
  | [], _ => by simp [ctrDecryptChunks, ctrDecrypt]
  | c :: cs, pos => by
      by_cases hc : c = []
      · subst hc
        simp [ctrDecryptChunks, ctrDecryptChunks_join E ctr0 cs pos]
      · simp [ctrDecryptChunks, hc, ctrDecrypt_append, ctrDecryptChunks_join E ctr0 cs]

/-- Claim C9: for every block cipher `E`, initial counter, and partition
of the ciphertext body into chunks, the streaming loop of
`_download_and_decrypt` (one `cipher.decrypt` per chunk, counter state
carried across calls) writes exactly the bytes a single `decrypt` of the
whole body would produce. -/
theorem c9_ctr_chunk_independent (E : Nat → List Nat) (ctr0 : Nat)
    (chunks : List (List Nat)) :
    ctrDecryptChunks E ctr0 0 chunks = ctrDecrypt E ctr0 0 chunks.flatten :=
  ctrDecryptChunks_join E ctr0 chunks 0

/-! ### Claim C6 -/

theorem unpackBE32_packBE32 : ∀ ws : List Nat, (∀ w ∈ ws, w < 2 ^ 32) →
    unpackBE32 (packBE32 ws) = ws
  | [], _ => rfl
  | w :: rest, h => by
      have hw : w < 2 ^ 32 := h w (List.mem_cons_self w rest)
      have hrest : ∀ x ∈ rest, x < 2 ^ 32 := fun x hx => h x (List.mem_cons_of_mem _ hx)
      simp only [packBE32, unpackBE32, unpackBE32_packBE32 rest hrest]
      congr 1
      omega

/-- Claim C6: a key token that decodes to exactly 32 bytes — eight
big-endian 32-bit words `w0..w7` — yields the AES key
`pack(w0⊕w4, w1⊕w5, w2⊕w6, w3⊕w7)` and the IV `pack(w4, w5)` followed by
eight zero bytes; a token whose decode is not 32 bytes long makes the
call fail with "Chave de decriptação inválida". -/
theorem c6_key_derivation (w0 w1 w2 w3 w4 w5 w6 w7 : Nat)
    (h0 : w0 < 2 ^ 32) (h1 : w1 < 2 ^ 32) (h2 : w2 < 2 ^ 32) (h3 : w3 < 2 ^ 32)
    (h4 : w4 < 2 ^ 32) (h5 : w5 < 2 ^ 32) (h6 : w6 < 2 ^ 32) (h7 : w7 < 2 ^ 32) :
    (∀ tok, base64ToBytes tok = some (packBE32 [w0, w1, w2, w3, w4, w5, w6, w7]) →
      megaKeyStage tok = Except.ok
        (packBE32 [Nat.xor w0 w4, Nat.xor w1 w5, Nat.xor w2 w6, Nat.xor w3 w7],
         packBE32 [w4, w5] ++ List.replicate 8 0))
    ∧ (∀ tok k, base64ToBytes tok = some k → k.length ≠ 32 →
        megaKeyStage tok = Except.error "Chave de decriptação inválida".toList) := by
  constructor
  · intro tok htok
    have hall : ∀ w ∈ [w0, w1, w2, w3, w4, w5, w6, w7], w < 2 ^ 32 := by
      intro w hw
      simp only [List.mem_cons, List.not_mem_nil, or_false] at hw
      rcases hw with rfl | rfl | rfl | rfl | rfl | rfl | rfl | rfl <;> assumption
    have hlen : (packBE32 [w0, w1, w2, w3, w4, w5, w6, w7]).length = 32 := rfl
    simp only [megaKeyStage, htok, hlen, if_pos]
    simp [megaPrepareKey, unpackBE32_packBE32 _ hall, List.getD]
  · intro tok k htok hk
    simp [megaKeyStage, htok, hk]

/-- Claim C6 witness: the derivation evaluated on the 32-byte key whose
words are 0..7 (round-tripped through its own encoding), and the
invalid-key failure on a token decoding to 4 bytes. -/
theorem c6_key_derivation_witness :
    megaKeyStage (b64urlEncode (packBE32 [0, 1, 2, 3, 4, 5, 6, 7])) = Except.ok
      (packBE32 [Nat.xor 0 4, Nat.xor 1 5, Nat.xor 2 6, Nat.xor 3 7],
       packBE32 [4, 5] ++ List.replicate 8 0)
    ∧ megaKeyStage "AAECAw".toList = Except.error "Chave de decriptação inválida".toList :=
  ⟨(c6_key_derivation 0 1 2 3 4 5 6 7 (by decide) (by decide) (by decide) (by decide)
      (by decide) (by decide) (by decide) (by decide)).1 _ (by decide),
   (c6_key_derivation 0 1 2 3 4 5 6 7 (by decide) (by decide) (by decide) (by decide)
      (by decide) (by decide) (by decide) (by decide)).2 "AAECAw".toList [0, 1, 2, 3]
      (by decide) (by decide)⟩

/-! ### Claim C7 -/

theorem b64CharVal_ne_pad {c : Char} (h : (b64CharVal c).isSome) : c ≠ '=' := by
  intro he
  subst he
  exact absurd h (by decide)

theorem b64CharVal_ne_comma {c : Char} (h : (b64CharVal c).isSome) : c ≠ ',' := by
  intro he
  subst he
  exact absurd h (by decide)

theorem b64n_val : ∀ v < 64, b64CharVal (repChar (b64n v)) = some v := by decide

theorem b64n_lt_ne_comma : ∀ v < 64, repChar (b64n v) ≠ ',' := by decide

theorem b64n_ne_comma (v : Nat) : repChar (b64n v) ≠ ',' := by
  rcases Nat.lt_or_ge v 64 with hv | hv
  · exact b64n_lt_ne_comma v hv
  · have hl : urlAlphabet.length = 64 := rfl
    have : b64n v = 'A' := List.getD_eq_default _ _ (by omega)
    rw [this]
    decide

/-- Stepping lemmas for the `a2b_base64` loop on a data character. -/
theorem a2b_step0 {c : Char} {v : Nat} (hc : b64CharVal c = some v) (rest : List Char)
    (pads : Nat) : a2bBase64 (c :: rest) [] pads = a2bBase64 rest [v] 0 := by
  have hne : c ≠ '=' := b64CharVal_ne_pad (by simp [hc])
  simp [a2bBase64, hne, hc]

theorem a2b_step1 {c : Char} {v : Nat} (hc : b64CharVal c = some v) (v0 : Nat)
    (rest : List Char) (pads : Nat) :
    a2bBase64 (c :: rest) [v0] pads = a2bBase64 rest [v0, v] 0 := by
  have hne : c ≠ '=' := b64CharVal_ne_pad (by simp [hc])
  simp [a2bBase64, hne, hc]

theorem a2b_step2 {c : Char} {v : Nat} (hc : b64CharVal c = some v) (v0 v1 : Nat)
    (rest : List Char) (pads : Nat) :
    a2bBase64 (c :: rest) [v0, v1] pads = a2bBase64 rest [v0, v1, v] 0 := by
  have hne : c ≠ '=' := b64CharVal_ne_pad (by simp [hc])
  simp [a2bBase64, hne, hc]

theorem a2b_step3 {c : Char} {v : Nat} (hc : b64CharVal c = some v) (v0 v1 v2 : Nat)
    (rest : List Char) (pads : Nat) :
    a2bBase64 (c :: rest) [v0, v1, v2] pads =
      (a2bBase64 rest [] 0).map (fun out => quadBytes v0 v1 v2 v ++ out) := by
  have hne : c ≠ '=' := b64CharVal_ne_pad (by simp [hc])
  simp [a2bBase64, hne, hc]

/-- Two trailing `=` terminate a 2-character quantum. -/
theorem a2b_pad2 (v0 v1 : Nat) : a2bBase64 ['=', '='] [v0, v1] 0 = some [v0 * 4 + v1 / 16] := by
  simp [a2bBase64, partialBytes]

/-- One trailing `=` terminates a 3-character quantum. -/
theorem a2b_pad1 (v0 v1 v2 : Nat) :
    a2bBase64 ['='] [v0, v1, v2] 0 = some [v0 * 4 + v1 / 16, v1 % 16 * 16 + v2 / 4] := by
  simp [a2bBase64, partialBytes]

theorem b64urlEncode_no_comma : ∀ (bs : List Nat), ∀ c ∈ b64urlEncode bs, repChar c ≠ ','
  | [] => by simp [b64urlEncode]
  | [b1] => by
      intro c hc
      simp only [b64urlEncode, List.mem_cons, List.not_mem_nil, or_false] at hc
      rcases hc with rfl | rfl <;> exact b64n_ne_comma _
  | [b1, b2] => by
      intro c hc
      simp only [b64urlEncode, List.mem_cons, List.not_mem_nil, or_false] at hc
      rcases hc with rfl | rfl | rfl <;> exact b64n_ne_comma _
  | b1 :: b2 :: b3 :: rest => by
      intro c hc
      simp only [b64urlEncode, List.mem_cons] at hc
      rcases hc with rfl | rfl | rfl | rfl | h
      · exact b64n_ne_comma _
      · exact b64n_ne_comma _
      · exact b64n_ne_comma _
      · exact b64n_ne_comma _
      · exact b64urlEncode_no_comma rest c h

theorem b64urlEncode_mod4 : ∀ bs : List Nat, (b64urlEncode bs).length % 4 ≠ 1
  | [] => by simp [b64urlEncode]
  | [b1] => by simp [b64urlEncode]
  | [b1, b2] => by simp [b64urlEncode]
  | b1 :: b2 :: b3 :: rest => by
      have ih := b64urlEncode_mod4 rest
      simp only [b64urlEncode, List.length_cons]
      omega

/-- `_base64_to_bytes` preprocessing on comma-free input: rewrite the
characters and append the padding. -/
theorem b64Repad_eq (s : List Char) (h : ∀ c ∈ s, repChar c ≠ ',') :
    b64Repad s = s.map repChar ++ List.replicate ((4 - s.length % 4) % 4) '=' := by
  have hf : (s.map repChar).filter (fun c => c ≠ ',') = s.map repChar := by
    rw [List.filter_eq_self]
    intro a ha
    obtain ⟨c, hc, rfl⟩ := List.mem_map.mp ha
    simpa using h c hc
  unfold b64Repad
  simp only [hf, List.length_map]
  by_cases hm : s.length % 4 = 0
  · simp [hm]
  · have h4 : s.length % 4 < 4 := Nat.mod_lt _ (by omega)
    have : (4 - s.length % 4) % 4 = 4 - s.length % 4 := by omega
    simp [hm, this]

theorem rt_loop : ∀ bs : List Nat, (∀ b ∈ bs, b < 256) →
    a2bBase64 ((b64urlEncode bs).map repChar ++
      List.replicate ((4 - (b64urlEncode bs).length % 4) % 4) '=') [] 0 = some bs
  | [], _ => rfl
  | [b1], h => by
      have hb1 : b1 < 256 := h b1 (by simp)
      have k0 := b64n_val (b1 / 4) (by omega)
      have k1 := b64n_val (b1 % 4 * 16) (by omega)
      show a2bBase64
        (repChar (b64n (b1 / 4)) :: repChar (b64n (b1 % 4 * 16)) :: ['=', '=']) [] 0 = some [b1]
      rw [a2b_step0 k0, a2b_step1 k1, a2b_pad2]
      have e : b1 / 4 * 4 + b1 % 4 * 16 / 16 = b1 := by omega
      rw [e]
  | [b1, b2], h => by
      have hb1 : b1 < 256 := h b1 (by simp)
      have hb2 : b2 < 256 := h b2 (by simp)
      have k0 := b64n_val (b1 / 4) (by omega)
      have k1 := b64n_val (b1 % 4 * 16 + b2 / 16) (by omega)
      have k2 := b64n_val (b2 % 16 * 4) (by omega)
      show a2bBase64
        (repChar (b64n (b1 / 4)) :: repChar (b64n (b1 % 4 * 16 + b2 / 16)) ::
          repChar (b64n (b2 % 16 * 4)) :: ['=']) [] 0 = some [b1, b2]
      rw [a2b_step0 k0, a2b_step1 k1, a2b_step2 k2, a2b_pad1]
      have e1 : b1 / 4 * 4 + (b1 % 4 * 16 + b2 / 16) / 16 = b1 := by omega
      have e2 : (b1 % 4 * 16 + b2 / 16) % 16 * 16 + b2 % 16 * 4 / 4 = b2 := by omega
      rw [e1, e2]
  | b1 :: b2 :: b3 :: rest, h => by
      have hb1 : b1 < 256 := h b1 (by simp)
      have hb2 : b2 < 256 := h b2 (by simp)
      have hb3 : b3 < 256 := h b3 (by simp)
      have hrest : ∀ b ∈ rest, b < 256 := fun b hb => h b (by simp [hb])
      have k0 := b64n_val (b1 / 4) (by omega)
      have k1 := b64n_val (b1 % 4 * 16 + b2 / 16) (by omega)
      have k2 := b64n_val (b2 % 16 * 4 + b3 / 64) (by omega)
      have k3 := b64n_val (b3 % 64) (by omega)
      have ih := rt_loop rest hrest
      show a2bBase64
        (repChar (b64n (b1 / 4)) :: repChar (b64n (b1 % 4 * 16 + b2 / 16)) ::
          repChar (b64n (b2 % 16 * 4 + b3 / 64)) :: repChar (b64n (b3 % 64)) ::
          ((b64urlEncode rest).map repChar ++
            List.replicate ((4 - ((b64urlEncode rest).length + 1 + 1 + 1 + 1) % 4) % 4) '='))
        [] 0 = some (b1 :: b2 :: b3 :: rest)
      have hp : (4 - ((b64urlEncode rest).length + 1 + 1 + 1 + 1) % 4) % 4 =
          (4 - (b64urlEncode rest).length % 4) % 4 := by omega
      rw [hp, a2b_step0 k0, a2b_step1 k1, a2b_step2 k2, a2b_step3 k3, ih]
      have e1 : b1 / 4 * 4 + (b1 % 4 * 16 + b2 / 16) / 16 = b1 := by omega
      have e2 : (b1 % 4 * 16 + b2 / 16) % 16 * 16 + (b2 % 16 * 4 + b3 / 64) / 4 = b2 := by omega
      have e3 : (b2 % 16 * 4 + b3 / 64) % 4 * 64 + b3 % 64 = b3 := by omega
      simp [quadBytes, e1, e2, e3]

theorem mod1_loop : ∀ (s : List Char), (∀ c ∈ s, (b64CharVal c).isSome) →
    ∀ (q : List Nat), q.length ≤ 3 → (q.length + s.length) % 4 = 1 →
    ∀ pads, a2bBase64 (s ++ ['=', '=', '=']) q pads = none
  | [], _, q, hq, hmod, pads => by
      rcases q with _ | ⟨v0, _ | ⟨v1, _ | ⟨v2, _ | ⟨v3, qr⟩⟩⟩⟩
      · simp at hmod
      · rfl
      · simp at hmod
      · simp at hmod
      · simp only [List.length_cons] at hq; omega
  | c :: s', h, q, hq, hmod, pads => by
      have hc : (b64CharVal c).isSome := h c (by simp)
      obtain ⟨v, hv⟩ := Option.isSome_iff_exists.mp hc
      have hs' : ∀ x ∈ s', (b64CharVal x).isSome := fun x hx => h x (by simp [hx])
      rcases q with _ | ⟨v0, _ | ⟨v1, _ | ⟨v2, _ | ⟨v3, qr⟩⟩⟩⟩
      · rw [List.cons_append, a2b_step0 hv]
        exact mod1_loop s' hs' [v] (by simp)
          (by simp only [List.length_cons, List.length_nil] at hmod ⊢; omega) 0
      · rw [List.cons_append, a2b_step1 hv]
        exact mod1_loop s' hs' [v0, v] (by simp)
          (by simp only [List.length_cons, List.length_nil] at hmod ⊢; omega) 0
      · rw [List.cons_append, a2b_step2 hv]
        exact mod1_loop s' hs' [v0, v1, v] (by simp)
          (by simp only [List.length_cons, List.length_nil] at hmod ⊢; omega) 0
      · rw [List.cons_append, a2b_step3 hv]
        rw [mod1_loop s' hs' [] (by simp)
          (by simp only [List.length_cons, List.length_nil] at hmod ⊢; omega) 0]
        rfl
      · simp only [List.length_cons] at hq; omega

/-- Claim C7 counterexample: the token `"="` has length 1 (also after
separator stripping), i.e. length mod 4 = 1, yet `_base64_to_bytes`
succeeds on it and returns the empty byte string (CPython's `b64decode`
discards the `=` and decodes `"===="` to `b''`) instead of failing. -/
theorem c7_counterexample :
    "=".toList.length % 4 = 1
    ∧ ((("=".toList.map repChar).filter (fun c => c ≠ ',')).length) % 4 = 1
    ∧ base64ToBytes "=".toList = some [] := by
  refine ⟨rfl, rfl, ?_⟩
  rfl

/-- Claim C7 (amended): encoding any byte string as unpadded base64url
and decoding it with `_base64_to_bytes` returns the original bytes, and
the encoded length mod 4 is never 1; a token made of base64url alphabet
characters whose length mod 4 equals 1 fails to decode — but tokens
containing non-alphabet characters (for example `"="`) can decode
successfully despite length mod 4 = 1, because `b64decode` discards
them. -/
theorem c7_roundtrip_and_mod1 :
    (∀ bs : List Nat, (∀ b ∈ bs, b < 256) →
      base64ToBytes (b64urlEncode bs) = some bs ∧ (b64urlEncode bs).length % 4 ≠ 1)
    ∧ (∀ s : List Char, (∀ c ∈ s, (b64CharVal (repChar c)).isSome) → s.length % 4 = 1 →
      base64ToBytes s = none) := by
  constructor
  · intro bs hbs
    refine ⟨?_, b64urlEncode_mod4 bs⟩
    unfold base64ToBytes
    rw [b64Repad_eq _ (b64urlEncode_no_comma bs)]
    exact rt_loop bs hbs
  · intro s hs hm
    unfold base64ToBytes
    have hcomma : ∀ c ∈ s, repChar c ≠ ',' := fun c hc => b64CharVal_ne_comma (hs c hc)
    rw [b64Repad_eq s hcomma, hm]
    rw [show ((4 - 1 % 4) % 4) = 3 from rfl]
    have hmap : ∀ x ∈ s.map repChar, (b64CharVal x).isSome := by
      intro x hx
      obtain ⟨c, hc, rfl⟩ := List.mem_map.mp hx
      exact hs c hc
    have := mod1_loop (s.map repChar) hmap [] (by simp) (by simp [hm]) 0
    simpa [List.replicate] using this

/-- Claim C7 amended witness: the round-trip on the bytes `[1, 2, 255]`
and the failure on the pure-alphabet token `"AAAAA"` of length 5. -/
theorem c7_roundtrip_witness :
    (base64ToBytes (b64urlEncode [1, 2, 255]) = some [1, 2, 255]
      ∧ (b64urlEncode [1, 2, 255]).length % 4 ≠ 1)
    ∧ base64ToBytes "AAAAA".toList = none :=
  ⟨c7_roundtrip_and_mod1.1 [1, 2, 255] (by decide),
   c7_roundtrip_and_mod1.2 "AAAAA".toList (by decide) (by decide)⟩

/-! ### Claim C8 -/

theorem listStartsWith_append : ∀ (p t : List Char), listStartsWith p (p ++ t) = true
  | [], _ => rfl
  | c :: p, t => by simp [listStartsWith, listStartsWith_append p t]

/-- A pattern whose fifth character is `.` cannot match at the head of a
dot-free string. -/
theorem startsWith_dot4_false (p0 p1 p2 p3 : Char) (ps : List Char) :
    ∀ s : List Char, (∀ c ∈ s, c ≠ '.') →
      listStartsWith (p0 :: p1 :: p2 :: p3 :: '.' :: ps) s = false
  | [], _ => rfl
  | [_], _ => by simp [listStartsWith]
  | [_, _], _ => by simp [listStartsWith]
  | [_, _, _], _ => by simp [listStartsWith]
  | [_, _, _, _], _ => by simp [listStartsWith]
  | a :: b :: c :: d :: e :: t, hs => by
      have he : ('.' == e) = false := by
        rw [beq_eq_false_iff_ne]
        exact fun h => hs e (by simp) h.symm
      simp [listStartsWith, he]

theorem occursIn_dot4_false (p0 p1 p2 p3 : Char) (ps : List Char) :
    ∀ s : List Char, (∀ c ∈ s, c ≠ '.') →
      occursIn (p0 :: p1 :: p2 :: p3 :: '.' :: ps) s = false
  | [], _ => rfl
  | c :: t, hs => by
      have h1 := startsWith_dot4_false p0 p1 p2 p3 ps (c :: t) hs
      have h2 := occursIn_dot4_false p0 p1 p2 p3 ps t (fun x hx => hs x (by simp [hx]))
      simp [occursIn, h1, h2]

theorem pyReplace_eq_self (pat rep : List Char) :
    ∀ s : List Char, occursIn pat s = false → pyReplace pat rep s = s
  | [], _ => by simp [pyReplace]
  | c :: t, h => by
      have h1 : listStartsWith pat (c :: t) = false := by
        simp only [occursIn, Bool.or_eq_false_iff] at h
        exact h.1
      have h2 : occursIn pat t = false := by
        simp only [occursIn, Bool.or_eq_false_iff] at h
        exact h.2
      simp [pyReplace, h1, pyReplace_eq_self pat rep t h2]

theorem matchPatAt_none (pat : List Char) (sep : Char) (s : List Char)
    (h : listStartsWith pat s = false) : matchPatAt pat sep s = none := by
  simp [matchPatAt, h]

theorem searchPat_none (pat : List Char) (sep : Char) :
    ∀ s : List Char, occursIn pat s = false → searchPat pat sep s = none
  | [], _ => rfl
  | c :: t, h => by
      have h1 : listStartsWith pat (c :: t) = false := by
        simp only [occursIn, Bool.or_eq_false_iff] at h
        exact h.1
      have h2 : occursIn pat t = false := by
        simp only [occursIn, Bool.or_eq_false_iff] at h
        exact h.2
      simp [searchPat, matchPatAt_none pat sep _ h1, searchPat_none pat sep t h2]

theorem takeWhile_append_sep (p : Char → Bool) :
    ∀ (xs : List Char) (y : Char) (ys : List Char), (∀ c ∈ xs, p c = true) → p y = false →
      (xs ++ y :: ys).takeWhile p = xs
  | [], y, ys, _, hy => by simp [List.takeWhile_cons, hy]
  | x :: xs, y, ys, hx, hy => by
      have hpx : p x = true := hx x (by simp)
      simp [List.takeWhile_cons, hpx,
        takeWhile_append_sep p xs y ys (fun c hc => hx c (by simp [hc])) hy]

theorem takeWhile_all (p : Char → Bool) :
    ∀ xs : List Char, (∀ c ∈ xs, p c = true) → xs.takeWhile p = xs
  | [], _ => rfl
  | x :: xs, hx => by
      have hpx : p x = true := hx x (by simp)
      simp [List.takeWhile_cons, hpx, takeWhile_all p xs (fun c hc => hx c (by simp [hc]))]

theorem matchPatAt_success (pat : List Char) (sep : Char) (id key : List Char)
    (hsep : sep ∉ id) (hid : id ≠ []) (hkey : key ≠ []) (hnl : Char.ofNat 10 ∉ key) :
    matchPatAt pat sep (pat ++ (id ++ sep :: key)) = some (id, key) := by
  have hpid : ∀ c ∈ id, (c != sep) = true := by
    intro c hc
    rw [bne_iff_ne]
    exact fun he => hsep (he ▸ hc)
  have hsepf : (sep != sep) = false := by simp
  have htake : (id ++ sep :: key).takeWhile (fun c => c != sep) = id :=
    takeWhile_append_sep _ id sep key hpid hsepf
  have hkeyall : ∀ c ∈ key, (c != '\n') = true := by
    intro c hc
    rw [bne_iff_ne]
    exact fun he => hnl (he ▸ hc)
  have htake2 : key.takeWhile (fun c => c != '\n') = key := takeWhile_all _ key hkeyall
  simp only [matchPatAt, listStartsWith_append, if_true, List.drop_left, htake]
  simp [htake2, hid, hkey]

theorem searchPat_found (p : Char) (pr : List Char) (sep : Char) (id key : List Char)
    (hsep : sep ∉ id) (hid : id ≠ []) (hkey : key ≠ []) (hnl : Char.ofNat 10 ∉ key) :
    searchPat (p :: pr) sep ((p :: pr) ++ (id ++ sep :: key)) = some (id, key) := by
  have hm := matchPatAt_success (p :: pr) sep id key hsep hid hkey hnl
  show (match matchPatAt (p :: pr) sep ((p :: pr) ++ (id ++ sep :: key)) with
        | some r => some r
        | none => searchPat (p :: pr) sep (pr ++ (id ++ sep :: key))) = some (id, key)
  rw [hm]

/-- Claim C8 counterexample: the URL
`https://example.com/?u=mega.nz/file/AAA#BBB` is of neither accepted
link shape (the pattern sits inside a query parameter of another host),
yet `_parse_url` succeeds on it — `re.search` matches the pattern
anywhere in the string — so the call does not fail with "invalid
URL". -/
theorem c8_counterexample :
    megaParseUrl "https://example.com/?u=mega.nz/file/AAA#BBB".toList =
      some ("AAA".toList, "BBB".toList)
    ∧ megaUrlStage "https://example.com/?u=mega.nz/file/AAA#BBB".toList =
      Except.ok ("AAA".toList, "BBB".toList) := by
  have hrep : pyReplace "mega.co.nz".toList "mega.nz".toList
      "https://example.com/?u=mega.nz/file/AAA#BBB".toList =
      "https://example.com/?u=mega.nz/file/AAA#BBB".toList :=
    pyReplace_eq_self _ _ _ (by decide)
  have h1 : megaParseUrl "https://example.com/?u=mega.nz/file/AAA#BBB".toList =
      some ("AAA".toList, "BBB".toList) := by
    simp only [megaParseUrl, hrep]
    rfl
  exact ⟨h1, by simp only [megaUrlStage, h1]⟩

/-- Claim C8 (amended): `_parse_url` matches its two grammars anywhere
in the URL text (after the `mega.co.nz` → `mega.nz` rewrite), not
anchored to the host position.  Canonical URLs of either accepted shape
parse to exactly the `(fileId, keyToken)` substrings, and URLs in which
neither pattern occurs at all fail with "invalid URL" — but a URL that
merely embeds the pattern (for instance inside a query parameter of
another host) also parses instead of failing. -/
theorem c8_parse_url (id key id2 key2 other : List Char)
    (hid : id ≠ []) (hidh : '#' ∉ id) (hidd : '.' ∉ id)
    (hkey : key ≠ []) (hkeyn : Char.ofNat 10 ∉ key) (hkeyd : '.' ∉ key)
    (hid2 : id2 ≠ []) (hid2b : '!' ∉ id2) (hid2d : '.' ∉ id2)
    (hkey2 : key2 ≠ []) (hkey2n : Char.ofNat 10 ∉ key2) (hkey2d : '.' ∉ key2)
    (hof : occursIn filePat other = false) (hol : occursIn legacyPat other = false)
    (hoc : occursIn "mega.co.nz".toList other = false) :
    megaParseUrl ("https://mega.nz/file/".toList ++ (id ++ '#' :: key)) = some (id, key)
    ∧ megaParseUrl ("https://mega.nz/#!".toList ++ (id2 ++ '!' :: key2)) = some (id2, key2)
    ∧ megaUrlStage other =
        Except.error "URL inválida - não foi possível extrair ID e chave".toList := by
  have hallT : ∀ c ∈ id ++ '#' :: key, c ≠ '.' := by
    intro c hc
    rcases List.mem_append.mp hc with h | h
    · exact fun he => hidd (he ▸ h)
    · rcases List.mem_cons.mp h with rfl | h
      · decide
      · exact fun he => hkeyd (he ▸ h)
  have hallT2 : ∀ c ∈ id2 ++ '!' :: key2, c ≠ '.' := by
    intro c hc
    rcases List.mem_append.mp hc with h | h
    · exact fun he => hid2d (he ▸ h)
    · rcases List.mem_cons.mp h with rfl | h
      · decide
      · exact fun he => hkey2d (he ▸ h)
  refine ⟨?_, ?_, ?_⟩
  · -- the modern `host/file/<ID>#<KEY>` shape
    have hoc1 : occursIn "mega.co.nz".toList
        ("https://mega.nz/file/".toList ++ (id ++ '#' :: key)) =
        occursIn "mega.co.nz".toList (id ++ '#' :: key) := rfl
    have hoc2 : occursIn "mega.co.nz".toList (id ++ '#' :: key) = false :=
      occursIn_dot4_false 'm' 'e' 'g' 'a' "co.nz".toList (id ++ '#' :: key) hallT
    have hrep := pyReplace_eq_self "mega.co.nz".toList "mega.nz".toList _ (hoc1.trans hoc2)
    have hsf1 : searchPat filePat '#' ("https://mega.nz/file/".toList ++ (id ++ '#' :: key)) =
        searchPat filePat '#' (filePat ++ (id ++ '#' :: key)) := rfl
    have hsf2 : searchPat filePat '#' (filePat ++ (id ++ '#' :: key)) = some (id, key) :=
      searchPat_found 'm' "ega.nz/file/".toList '#' id key hidh hid hkey hkeyn
    simp only [megaParseUrl, hrep, hsf1.trans hsf2]
  · -- the legacy `host/#!<ID>!<KEY>` shape
    have hoc1 : occursIn "mega.co.nz".toList
        ("https://mega.nz/#!".toList ++ (id2 ++ '!' :: key2)) =
        occursIn "mega.co.nz".toList (id2 ++ '!' :: key2) := rfl
    have hoc2 : occursIn "mega.co.nz".toList (id2 ++ '!' :: key2) = false :=
      occursIn_dot4_false 'm' 'e' 'g' 'a' "co.nz".toList (id2 ++ '!' :: key2) hallT2
    have hrep := pyReplace_eq_self "mega.co.nz".toList "mega.nz".toList _ (hoc1.trans hoc2)
    have hff1 : searchPat filePat '#' ("https://mega.nz/#!".toList ++ (id2 ++ '!' :: key2)) =
        searchPat filePat '#' (id2 ++ '!' :: key2) := rfl
    have hff2 : searchPat filePat '#' (id2 ++ '!' :: key2) = none :=
      searchPat_none filePat '#' _
        (occursIn_dot4_false 'm' 'e' 'g' 'a' "nz/file/".toList (id2 ++ '!' :: key2) hallT2)
    have hsl1 : searchPat legacyPat '!' ("https://mega.nz/#!".toList ++ (id2 ++ '!' :: key2)) =
        searchPat legacyPat '!' (legacyPat ++ (id2 ++ '!' :: key2)) := rfl
    have hsl2 : searchPat legacyPat '!' (legacyPat ++ (id2 ++ '!' :: key2)) = some (id2, key2) :=
      searchPat_found 'm' "ega.nz/#!".toList '!' id2 key2 hid2b hid2 hkey2 hkey2n
    simp only [megaParseUrl, hrep, hff1.trans hff2, hsl1.trans hsl2]
  · -- any URL containing neither pattern
    simp only [megaUrlStage, megaParseUrl,
      pyReplace_eq_self "mega.co.nz".toList "mega.nz".toList other hoc,
      searchPat_none filePat '#' other hof, searchPat_none legacyPat '!' other hol]

/-- Claim C8 amended witness: both canonical shapes and one
pattern-free URL, evaluated concretely. -/
theorem c8_parse_url_witness :
    megaParseUrl ("https://mega.nz/file/".toList ++ ("AAA".toList ++ '#' :: "BBB".toList)) =
      some ("AAA".toList, "BBB".toList)
    ∧ megaParseUrl ("https://mega.nz/#!".toList ++ ("XYZ".toList ++ '!' :: "K1".toList)) =
      some ("XYZ".toList, "K1".toList)
    ∧ megaUrlStage "http://example.com/f.bin".toList =
      Except.error "URL inválida - não foi possível extrair ID e chave".toList :=
  c8_parse_url "AAA".toList "BBB".toList "XYZ".toList "K1".toList
    "http://example.com/f.bin".toList
    (by decide) (by decide) (by decide) (by decide) (by decide) (by decide)
    (by decide) (by decide) (by decide) (by decide) (by decide) (by decide)
    (by decide) (by decide) (by decide)

end ResolutaLeech
